import Mathlib

/-!
Verification development for the client-zip streaming ZIP encoder.

The repository ships the public entry module (src/index.ts) and the test
corpus for the core module (zip.ts).  The core module itself (zip.ts,
together with its helpers crc32.ts and datetime.ts) is not among the
source files, so its functions are modelled here from the natural-language
specification, constrained by the golden byte vectors that the shipped
test corpus asserts for fileHeader, fileData, dataDescriptor,
centralHeader and zip64ExtraField.  All integers are little-endian bytes
unless noted; machine integers are modelled as Nat with explicit
truncation where the code truncates.
-/

namespace ClientZip

/-! ## Byte-level primitives -/

/-- Little-endian 16-bit write, as performed by DataView.setUint16 with the
little-endian flag: two bytes, least significant first.  Values are
truncated modulo 2 to the 16 exactly as the typed-array write truncates. -/
def le16 (v : Nat) : List Nat := [v % 256, v / 256 % 256]

/-- Little-endian 32-bit write (DataView.setUint32 with the little-endian
flag). -/
def le32 (v : Nat) : List Nat :=
  [v % 256, v / 256 % 256, v / 65536 % 256, v / 16777216 % 256]

/-- Little-endian 64-bit write (DataView.setBigUint64 with the
little-endian flag). -/
def le64 (v : Nat) : List Nat :=
  [v % 256, v / 256 % 256, v / 65536 % 256, v / 16777216 % 256,
   v / 4294967296 % 256, v / 1099511627776 % 256,
   v / 281474976710656 % 256, v / 72057594037927936 % 256]

/-- Little-endian value of the first n bytes of a list (missing bytes read
as zero). -/
def readLE0 : Nat → List Nat → Nat
  | 0, _ => 0
  | _ + 1, [] => 0
  | n + 1, b :: rest => b + 256 * readLE0 n rest

/-- Little-endian n-byte field of a byte list at a given offset. -/
def readAt (l : List Nat) (off n : Nat) : Nat := readLE0 n (l.drop off)

/-- Clamp to the 32-bit sentinel, as the JS helper Math.min(0xffffffff, n)
does when writing a possibly-oversized value into a 32-bit field. -/
def clamp32 (v : Nat) : Nat := min v 4294967295

/-- Clamp to the 16-bit sentinel for entry counts. -/
def clamp16 (v : Nat) : Nat := min v 65535

/-! ## CRC-32

Modelled from the spec: the helper module crc32.ts is not among the source
files.  Section 4.1 fixes the algorithm: the standard 32-bit cyclic
redundancy checksum with polynomial 0xEDB88320, initial value 0xFFFFFFFF
and a final complement, computed incrementally over the chunk stream. -/

/-- Modelled from the spec: one shift-and-conditionally-xor round of the
reflected CRC-32 with polynomial 0xEDB88320 (missing crc32.ts). -/
def crcRound (c : Nat) : Nat :=
  if c % 2 = 1 then (c / 2) ^^^ 0xEDB88320 else c / 2

/-- Iterated CRC rounds. -/
def crcRounds : Nat → Nat → Nat
  | 0, c => c
  | n + 1, c => crcRounds n (crcRound c)

/-- Modelled from the spec: absorb one byte into the CRC register (missing
crc32.ts). -/
def crcByteStep (c b : Nat) : Nat := crcRounds 8 (c ^^^ b)

/-- Modelled from the spec: absorb a chunk of bytes into the CRC register
(missing crc32.ts); this is the incremental per-chunk update the
Accumulator performs. -/
def crc32Raw (c : Nat) (bytes : List Nat) : Nat := bytes.foldl crcByteStep c

/-- Modelled from the spec: the standard one-shot CRC-32 of a byte
sequence, with initial value 0xFFFFFFFF and final complement (missing
crc32.ts). -/
def crc32 (bytes : List Nat) : Nat := crc32Raw 0xFFFFFFFF bytes ^^^ 0xFFFFFFFF

/-! ## Data model -/

/-- Calendar instant used for the DOS date and time fields, in the local
time zone as the code reads it from a Date object. -/
structure DOSDateTime where
  year : Nat
  month : Nat
  day : Nat
  hours : Nat
  minutes : Nat
  seconds : Nat
deriving DecidableEq

/-- Uniform file record delivered to the core by the upstream
normalization collaborators (the ZipFileDescription of input.ts, merged
with the metadata record): lazy content as a finite list of byte chunks,
the encoded name bytes with the UTF-8 flag, the modification instant, and
the size and crc fields, absent until the Accumulator fills them in
(or pre-supplied by the caller as metadata). -/
structure ZipFileDescription where
  content : List (List Nat)
  encodedName : List Nat
  modDate : DOSDateTime
  nameIsUTF8 : Bool
  uncompressedSize : Option Nat
  crc : Option Nat
deriving DecidableEq

instance : Inhabited ZipFileDescription :=
  ⟨⟨[], [], ⟨1980, 1, 1, 0, 0, 0⟩, false, none, none⟩⟩

/-- Modelled from the spec: the 16-bit DOS time half of the encoding
produced by the missing datetime.ts helper formatDOSDateTime: two-second
resolution, minutes at bit 5, hours at bit 11. -/
def dosTime (t : DOSDateTime) : Nat :=
  t.seconds / 2 + t.minutes * 32 + t.hours * 2048

/-- Modelled from the spec: the 16-bit DOS date half of the encoding
produced by the missing datetime.ts helper formatDOSDateTime: day at
bit 0, month at bit 5, years since 1980 at bit 9. -/
def dosDate (t : DOSDateTime) : Nat :=
  t.day + t.month * 32 + (t.year - 1980) * 512

/-- General-purpose flags: bit 3 is always set (sizes and crc are deferred
to the data descriptor), bit 11 is set when the name is UTF-8 flagged. -/
def flagsOf (f : ZipFileDescription) : Nat :=
  if f.nameIsUTF8 then 2056 else 8

/-- Declared length, in bytes, of the Zip64 extra field the encoders
always attach: 4 bytes of id and length, three 8-byte values, 4 bytes of
disk start number. -/
def zip64ExtraFieldLength : Nat := 32

/-! ## Header encoders

Modelled from the spec: zip.ts is not among the source files, so the five
encoders are reconstructed from section 4.3 and pinned byte-for-byte by
the golden vectors of the shipped test corpus (src/unnamed/part_000).
Those vectors force the variant in which every local and central header
declares a 32-byte Zip64 extra field, local headers leave crc and sizes
zero, and data descriptors always carry 64-bit sizes. -/

/-- Modelled from the spec: the Local File Header encoder fileHeader of
the missing zip.ts.  Signature PK 03 04, version needed 45, flag bit 3
always set (crc and sizes are left zero and deferred to the data
descriptor), method stored, DOS time and date, zero crc and sizes, name
length, and a declared 32-byte Zip64 extra field. -/
def fileHeader (f : ZipFileDescription) : List Nat :=
  [0x50, 0x4b, 3, 4] ++ le16 45 ++ le16 (flagsOf f) ++ le16 0 ++
    le16 (dosTime f.modDate) ++ le16 (dosDate f.modDate) ++
    le32 0 ++ le32 0 ++ le32 0 ++
    le16 f.encodedName.length ++ le16 zip64ExtraFieldLength

/-- Modelled from the spec: the Data Descriptor encoder dataDescriptor of
the missing zip.ts.  Signature PK 07 08, true 32-bit crc, then the
compressed and uncompressed sizes, both written as 64-bit fields and equal
since nothing is compressed. -/
def dataDescriptor (f : ZipFileDescription) : List Nat :=
  [0x50, 0x4b, 7, 8] ++ le32 (f.crc.getD 0) ++
    le64 (f.uncompressedSize.getD 0) ++ le64 (f.uncompressedSize.getD 0)

/-- Modelled from the spec: the Central Directory Header encoder
centralHeader of the missing zip.ts.  Signature PK 01 02, version made by
0x0315, version needed 45, flags and method and date mirrored from the
local header, true crc, sizes and local-header offset clamped to the
32-bit sentinel when oversized, name length, declared 32-byte Zip64 extra
field, zero comment and disk and internal attributes, unix external
attributes. -/
def centralHeader (f : ZipFileDescription) (offset : Nat) : List Nat :=
  [0x50, 0x4b, 1, 2] ++ le16 0x0315 ++ le16 45 ++ le16 (flagsOf f) ++ le16 0 ++
    le16 (dosTime f.modDate) ++ le16 (dosDate f.modDate) ++
    le32 (f.crc.getD 0) ++
    le32 (clamp32 (f.uncompressedSize.getD 0)) ++
    le32 (clamp32 (f.uncompressedSize.getD 0)) ++
    le16 f.encodedName.length ++ le16 zip64ExtraFieldLength ++
    le16 0 ++ le16 0 ++ le16 0 ++
    [0, 0, 0xb4, 0x81] ++ le32 (clamp32 offset)

/-- Modelled from the spec: the Zip64 extra field encoder zip64ExtraField
of the missing zip.ts, pinned by the golden test vector: the 2-byte id is
written without the little-endian flag, so its bytes are 00 01; declared
data length 28; then always the uncompressed size, the compressed size
(equal), the local-header offset as 64-bit values, and a zero 4-byte disk
start number. -/
def zip64ExtraField (f : ZipFileDescription) (offset : Nat) : List Nat :=
  [0, 1] ++ le16 28 ++ le64 (f.uncompressedSize.getD 0) ++
    le64 (f.uncompressedSize.getD 0) ++ le64 offset ++ le32 0

/-- Modelled from the spec: the classic End of Central Directory record of
the missing zip.ts: signature PK 05 06, zero disk numbers, entry count
twice (clamped to the 16-bit sentinel), central directory size and offset
(clamped to the 32-bit sentinel), zero comment length. -/
def endRecord (count cdSize cdOffset : Nat) : List Nat :=
  [0x50, 0x4b, 5, 6] ++ le16 0 ++ le16 0 ++
    le16 (clamp16 count) ++ le16 (clamp16 count) ++
    le32 (clamp32 cdSize) ++ le32 (clamp32 cdOffset) ++ le16 0

/-- Modelled from the spec: the Zip64 End of Central Directory record,
emitted when a field of the classic end record overflows. -/
def zip64EndRecord (count cdSize cdOffset : Nat) : List Nat :=
  [0x50, 0x4b, 6, 6] ++ le64 44 ++ le16 45 ++ le16 45 ++
    le32 0 ++ le32 0 ++ le64 count ++ le64 count ++ le64 cdSize ++ le64 cdOffset

/-- Modelled from the spec: the Zip64 End of Central Directory locator,
pointing at the Zip64 end record. -/
def zip64EndLocator (endOffset : Nat) : List Nat :=
  [0x50, 0x4b, 6, 7] ++ le32 0 ++ le64 endOffset ++ le32 1

/-! ## Checksum and size Accumulator (fileData)

Modelled from the spec: the generator fileData of the missing zip.ts.
Section 4.1 fixes its contract: pass the chunks through unmodified while
accumulating the byte count and the CRC register, and write the totals
into the owning entry exactly once, when the sequence is exhausted.  The
shipped test corpus pins this behaviour: the yielded bytes equal the
source bytes, and the size and crc fields are undefined before the
iteration and set after it. -/

/-- State of one fileData generator run: chunks not yet yielded, the two
running accumulators, and the owning entry as currently visible. -/
structure GenState where
  pending : List (List Nat)
  sizeAcc : Nat
  crcAcc : Nat
  entry : ZipFileDescription
deriving DecidableEq

/-- Modelled from the spec: initial state of the fileData generator for an
entry (missing zip.ts). -/
def fileDataInit (f : ZipFileDescription) : GenState :=
  ⟨f.content, 0, 0xFFFFFFFF, f⟩

/-- Modelled from the spec: one pull from the fileData generator (missing
zip.ts).  While chunks remain, the next chunk is yielded unmodified and
the accumulators advance; on exhaustion nothing is yielded and the final
size and complemented crc are written into the entry. -/
def fileDataStep (s : GenState) : Option (List Nat) × GenState :=
  match s.pending with
  | [] =>
    (none,
     { s with entry :=
        { s.entry with
            uncompressedSize := some s.sizeAcc
            crc := some (s.crcAcc ^^^ 0xFFFFFFFF) } })
  | c :: rest =>
    (some c, ⟨rest, s.sizeAcc + c.length, crc32Raw s.crcAcc c, s.entry⟩)

/-- State after a given number of pulls from the generator. -/
def fileDataAfter : Nat → GenState → GenState
  | 0, s => s
  | n + 1, s => fileDataAfter n (fileDataStep s).2

/-- Chunks yielded by a given number of pulls from the generator. -/
def fileDataOut : Nat → GenState → List (List Nat)
  | 0, _ => []
  | n + 1, s =>
    match fileDataStep s with
    | (none, _) => []
    | (some c, next) => c :: fileDataOut n next

/-! ## Streaming Orchestrator (loadFiles)

Modelled from the spec: the generator loadFiles of the missing zip.ts.
For each entry in order: record the output cursor as the entry offset,
emit the local header, the name and the Zip64 extra field, forward the
content through the Accumulator, emit the data descriptor with the final
size and crc; collect the central directory record of the finalized entry;
after the last entry emit the central directory and the end records. -/

/-- Entry with the final size and crc the Accumulator writes at
exhaustion. -/
def finalizeEntry (f : ZipFileDescription) : ZipFileDescription :=
  { f with
      uncompressedSize := some f.content.flatten.length
      crc := some (crc32 f.content.flatten) }

/-- Modelled from the spec: the byte run one entry contributes to the data
part of the archive: local header, name, Zip64 extra field, the raw
content, and the trailing data descriptor of the finalized entry. -/
def localSegment (f : ZipFileDescription) (offset : Nat) : List Nat :=
  fileHeader f ++ f.encodedName ++ zip64ExtraField f offset ++
    f.content.flatten ++ dataDescriptor (finalizeEntry f)

/-- Modelled from the spec: the central directory record of one finalized
entry: central header, name, Zip64 extra field. -/
def centralRecordFor (f : ZipFileDescription) (offset : Nat) : List Nat :=
  centralHeader (finalizeEntry f) offset ++ f.encodedName ++
    zip64ExtraField (finalizeEntry f) offset

/-- Modelled from the spec: the main loop of the Streaming Orchestrator,
returning the data part, the concatenated central directory, and the entry
count, while the cursor advances by the length of each local segment. -/
def loadLoop : List ZipFileDescription → Nat → List Nat × List Nat × Nat
  | [], _ => ([], [], 0)
  | f :: rest, offset =>
    let seg := localSegment f offset
    let next := loadLoop rest (offset + seg.length)
    (seg ++ next.1, centralRecordFor f offset ++ next.2.1, next.2.2 + 1)

/-- Local header offsets the Orchestrator assigns, entry by entry. -/
def entryOffsets : List ZipFileDescription → Nat → List Nat
  | [], _ => []
  | f :: rest, offset => offset :: entryOffsets rest (offset + (localSegment f offset).length)

/-- Central directory records, one list of bytes per entry. -/
def centralRecords : List ZipFileDescription → Nat → List (List Nat)
  | [], _ => []
  | f :: rest, offset =>
    centralRecordFor f offset :: centralRecords rest (offset + (localSegment f offset).length)

/-- Modelled from the spec: the end records.  When the entry count, the
central directory size or its offset overflows its fixed-width field, a
Zip64 end record and locator precede the sentineled classic end record. -/
def endRecords (count cdSize cdOffset : Nat) : List Nat :=
  if 65535 ≤ count ∨ 4294967295 ≤ cdSize ∨ 4294967295 ≤ cdOffset then
    zip64EndRecord count cdSize cdOffset ++ zip64EndLocator (cdOffset + cdSize) ++
      endRecord count cdSize cdOffset
  else endRecord count cdSize cdOffset

/-- Modelled from the spec: the whole archive byte sequence the Streaming
Orchestrator produces (generateArchive, the body stream of downloadZip):
the data part, then the central directory, then the end records. -/
def loadFilesBytes (files : List ZipFileDescription) : List Nat :=
  let r := loadLoop files 0
  r.1 ++ r.2.1 ++ endRecords r.2.2 r.2.1.length r.1.length

/-! ## Length Predictor (contentLength, predictLength) -/

/-- Typed failures surfaced to the caller, per the error handling design:
the prediction error carries the name bytes of the offending entry. -/
inductive ZipError where
  | MissingSizeForPrediction (encodedName : List Nat)
deriving DecidableEq

/-- Modelled from the spec: total the data part would occupy, summed from
metadata only: per entry the 30-byte local header, the name, the 32-byte
Zip64 extra field, the declared size, and the 24-byte data descriptor. -/
def predictedDataLength (files : List ZipFileDescription) : Nat :=
  files.foldl
    (fun acc f => acc + 30 + f.encodedName.length + 32 + f.uncompressedSize.getD 0 + 24) 0

/-- Modelled from the spec: total the central directory would occupy,
summed from metadata only: per entry the 46-byte central header, the name
and the 32-byte Zip64 extra field. -/
def predictedCentralLength (files : List ZipFileDescription) : Nat :=
  files.foldl (fun acc f => acc + 46 + f.encodedName.length + 32) 0

/-- Modelled from the spec: the Length Predictor contentLength of the
missing zip.ts.  An entry without a known size is a caller error, rejected
with the name of the offending entry before any total is produced; with
all sizes known the exact archive length is summed from metadata alone,
mirroring the field-width decisions of the end records. -/
def contentLength (files : List ZipFileDescription) : Except ZipError Nat :=
  match files.find? (fun f => f.uncompressedSize.isNone) with
  | some f => .error (.MissingSizeForPrediction f.encodedName)
  | none =>
    let dl := predictedDataLength files
    let cl := predictedCentralLength files
    .ok (dl + cl + 22 +
      (if 65535 ≤ files.length ∨ 4294967295 ≤ cl ∨ 4294967295 ≤ dl then 76 else 0))

/-- Entry point predictLength of src/index.ts: it feeds the normalized
metadata to contentLength (the upstream metadata normalization is outside
the core and the normalized records are taken as given). -/
def predictLength (files : List ZipFileDescription) : Except ZipError Nat :=
  contentLength files

/-! ## The downloadZip Response of src/index.ts -/

/-- Option bag of downloadZip (src/index.ts): an optional Content-Length
value, modelled as a rational since any JS number can be passed, and the
optional metadata whose prediction overrides it. -/
structure Options where
  length : Option ℚ := none
  metadata : Option (List ZipFileDescription) := none

/-- Headers of the returned Response. -/
structure RespHeaders where
  contentType : String
  contentDisposition : String
  contentLength : Option Nat
deriving DecidableEq

/-- The Response downloadZip builds: headers plus the archive byte
stream. -/
structure ZipResponse where
  headers : RespHeaders
  body : List Nat

/-- Translation of downloadZip (src/index.ts): Content-Type and
Content-Disposition are always set; Content-Length is set from the length
option when that value is an integer strictly greater than zero, and is
overridden by predictLength of the metadata option whenever metadata is
provided; the body is the archive stream.  A prediction failure propagates
and no Response is produced. -/
def downloadZip (files : List ZipFileDescription) (opts : Options) :
    Except ZipError ZipResponse :=
  let baseCL : Option Nat :=
    match opts.length with
    | some q => if q.den = 1 ∧ 0 < q.num then some q.num.toNat else none
    | none => none
  match opts.metadata with
  | some m =>
    match predictLength m with
    | .ok n =>
      .ok ⟨⟨"application/zip", "attachment", some n⟩, loadFilesBytes files⟩
    | .error e => .error e
  | none =>
    .ok ⟨⟨"application/zip", "attachment", baseCL⟩, loadFilesBytes files⟩

/-! ## Concrete entries used as test inputs -/

/-- The APPNOTE.TXT test entry of the shipped test corpus: name bytes of
APPNOTE.TXT, modification instant 2019-04-26T02:00, no pre-known size or
crc. -/
def testFile : ZipFileDescription :=
  { content := []
    encodedName := [0x41, 0x50, 0x50, 0x4E, 0x4F, 0x54, 0x45, 0x2E, 0x54, 0x58, 0x54]
    modDate := ⟨2019, 4, 26, 2, 0, 0⟩
    nameIsUTF8 := false
    uncompressedSize := none
    crc := none }

/-- The same entry with the size and crc the header tests fix. -/
def testFileSized : ZipFileDescription :=
  { testFile with uncompressedSize := some 0x10203040, crc := some 0x12345678 }

/-- Entry whose pre-known size sits exactly at the 32-bit sentinel. -/
def maxFile : ZipFileDescription :=
  { testFile with uncompressedSize := some 4294967295, crc := some 0 }

/-- Entry whose pre-known size is one below the 32-bit sentinel. -/
def nearMaxFile : ZipFileDescription :=
  { testFile with uncompressedSize := some 4294967294, crc := some 0 }

/-- Small entry whose payload 1 2 3 is split as two chunks. -/
def accEntryA : ZipFileDescription :=
  { testFile with content := [[1, 2], [3]] }

/-- The same payload 1 2 3 split differently. -/
def accEntryB : ZipFileDescription :=
  { testFile with content := [[1], [2, 3]] }

/-- Small entry with a known size and three content bytes, for the length
prediction witnesses. -/
def smallSized : ZipFileDescription :=
  { testFile with content := [[1, 2, 3]], uncompressedSize := some 3 }

/-! # Theorems -/

/-! ## Byte-level lemmas -/

theorem length_le16 (v : Nat) : (le16 v).length = 2 := rfl

theorem length_le32 (v : Nat) : (le32 v).length = 4 := rfl

theorem length_le64 (v : Nat) : (le64 v).length = 8 := rfl

theorem clamp32_lt (v : Nat) : clamp32 v < 4294967296 := by
  unfold clamp32; omega

theorem clamp16_lt (v : Nat) : clamp16 v < 65536 := by
  unfold clamp16; omega

theorem drop_append_length (l₁ l₂ : List Nat) (k : Nat) :
    (l₁ ++ l₂).drop (l₁.length + k) = l₂.drop k :=
  List.drop_append k

theorem readAt_append (l₁ l₂ : List Nat) (k n : Nat) :
    readAt (l₁ ++ l₂) (l₁.length + k) n = readAt l₂ k n := by
  unfold readAt
  rw [drop_append_length]

theorem readLE0_two (d0 d1 : Nat) (rest : List Nat) :
    readLE0 2 (d0 :: d1 :: rest) = d0 + 256 * (d1 + 256 * 0) := rfl

theorem readLE0_four (d0 d1 d2 d3 : Nat) (rest : List Nat) :
    readLE0 4 (d0 :: d1 :: d2 :: d3 :: rest)
      = d0 + 256 * (d1 + 256 * (d2 + 256 * (d3 + 256 * 0))) := rfl

theorem readLE0_eight (d0 d1 d2 d3 d4 d5 d6 d7 : Nat) (rest : List Nat) :
    readLE0 8 (d0 :: d1 :: d2 :: d3 :: d4 :: d5 :: d6 :: d7 :: rest)
      = d0 + 256 * (d1 + 256 * (d2 + 256 * (d3 + 256 * (d4 + 256 * (d5 +
          256 * (d6 + 256 * (d7 + 256 * 0))))))) := rfl

/-! ## CRC lemmas -/

set_option maxRecDepth 4000 in
/-- Sanity check of the CRC model against the standard check value: the
CRC-32 of the ASCII string 123456789 is 0xCBF43926. -/
theorem crc32_check_value :
    crc32 [49, 50, 51, 52, 53, 54, 55, 56, 57] = 0xCBF43926 := by decide

theorem crc32Raw_append (c : Nat) (a b : List Nat) :
    crc32Raw c (a ++ b) = crc32Raw (crc32Raw c a) b := by
  unfold crc32Raw
  exact List.foldl_append ..

/-! ## Header length lemmas -/

theorem length_fileHeader (f : ZipFileDescription) : (fileHeader f).length = 30 := by
  simp [fileHeader, le16, le32]

theorem length_dataDescriptor (f : ZipFileDescription) :
    (dataDescriptor f).length = 24 := by
  simp [dataDescriptor, le32, le64]

theorem length_centralHeader (f : ZipFileDescription) (offset : Nat) :
    (centralHeader f offset).length = 46 := by
  simp [centralHeader, le16, le32]

theorem length_zip64ExtraField (f : ZipFileDescription) (offset : Nat) :
    (zip64ExtraField f offset).length = 32 := by
  simp [zip64ExtraField, le16, le32, le64]

theorem length_endRecord (c s o : Nat) : (endRecord c s o).length = 22 := by
  simp [endRecord, le16, le32]

theorem length_zip64EndRecord (c s o : Nat) : (zip64EndRecord c s o).length = 56 := by
  simp [zip64EndRecord, le16, le32, le64]

theorem length_zip64EndLocator (e : Nat) : (zip64EndLocator e).length = 20 := by
  simp [zip64EndLocator, le32, le64]

theorem length_localSegment (f : ZipFileDescription) (offset : Nat) :
    (localSegment f offset).length = 86 + f.encodedName.length + f.content.flatten.length := by
  simp [localSegment, length_fileHeader, length_zip64ExtraField, length_dataDescriptor]
  omega

theorem length_centralRecordFor (f : ZipFileDescription) (offset : Nat) :
    (centralRecordFor f offset).length = 78 + f.encodedName.length := by
  simp [centralRecordFor, length_centralHeader, length_zip64ExtraField]
  omega

theorem length_endRecords (c s o : Nat) :
    (endRecords c s o).length =
      if 65535 ≤ c ∨ 4294967295 ≤ s ∨ 4294967295 ≤ o then 98 else 22 := by
  unfold endRecords
  split <;>
    simp [length_zip64EndRecord, length_zip64EndLocator, length_endRecord]

/-! ## Golden vectors from the shipped test corpus -/

/-- The fileHeader golden vector of the shipped test corpus is reproduced
by the model. -/
theorem fileHeader_golden :
    fileHeader testFile =
      [0x50, 0x4b, 0x03, 0x04, 0x2d, 0x00, 0x08, 0x00, 0x00, 0x00,
       0x00, 0x10, 0x9a, 0x4e, 0x00, 0x00, 0x00, 0x00, 0x00, 0x00,
       0x00, 0x00, 0x00, 0x00, 0x00, 0x00, 0x0b, 0x00, 0x20, 0x00] := by decide

/-- The dataDescriptor golden vector of the shipped test corpus is
reproduced by the model. -/
theorem dataDescriptor_golden :
    dataDescriptor testFileSized =
      [0x50, 0x4b, 0x07, 0x08, 0x78, 0x56, 0x34, 0x12, 0x40, 0x30, 0x20, 0x10,
       0x00, 0x00, 0x00, 0x00, 0x40, 0x30, 0x20, 0x10, 0x00, 0x00, 0x00, 0x00] := by decide

/-- The centralHeader golden vector of the shipped test corpus is
reproduced by the model. -/
theorem centralHeader_golden :
    centralHeader testFileSized 0x01020304 =
      [0x50, 0x4b, 0x01, 0x02, 0x15, 0x03, 0x2d, 0x00, 0x08, 0x00, 0x00, 0x00,
       0x00, 0x10, 0x9a, 0x4e, 0x78, 0x56, 0x34, 0x12, 0x40, 0x30, 0x20, 0x10,
       0x40, 0x30, 0x20, 0x10, 0x0b, 0x00, 0x20, 0x00, 0x00, 0x00, 0x00, 0x00,
       0x00, 0x00, 0x00, 0x00, 0xb4, 0x81, 0x04, 0x03, 0x02, 0x01] := by decide

/-- The zip64ExtraField golden vector of the shipped test corpus is
reproduced by the model. -/
theorem zip64ExtraField_golden :
    zip64ExtraField testFileSized 0x01020304 =
      [0x00, 0x01, 0x1c, 0x00, 0x40, 0x30, 0x20, 0x10, 0x00, 0x00, 0x00, 0x00,
       0x40, 0x30, 0x20, 0x10, 0x00, 0x00, 0x00, 0x00, 0x04, 0x03, 0x02, 0x01,
       0x00, 0x00, 0x00, 0x00, 0x00, 0x00, 0x00, 0x00] := by decide

/-! ## Accumulator lemmas -/

theorem fileDataOut_all (pending : List (List Nat)) (sz cr : Nat)
    (e : ZipFileDescription) :
    fileDataOut (pending.length + 1) ⟨pending, sz, cr, e⟩ = pending := by
  induction pending generalizing sz cr with
  | nil => rfl
  | cons c rest ih =>
    show c :: fileDataOut (rest.length + 1) _ = c :: rest
    rw [ih]

theorem fileDataAfter_entry_untouched (k : Nat) (pending : List (List Nat))
    (sz cr : Nat) (e : ZipFileDescription) (h : k ≤ pending.length) :
    (fileDataAfter k ⟨pending, sz, cr, e⟩).entry = e := by
  induction k generalizing pending sz cr with
  | zero => rfl
  | succ n ih =>
    match pending with
    | [] => exact absurd h (by simp)
    | c :: rest =>
      show (fileDataAfter n ⟨rest, sz + c.length, crc32Raw cr c, e⟩).entry = e
      exact ih rest _ _ (by simpa using h)

theorem fileDataAfter_final (pending : List (List Nat)) (sz cr : Nat)
    (e : ZipFileDescription) :
    (fileDataAfter (pending.length + 1) ⟨pending, sz, cr, e⟩).entry.uncompressedSize
        = some (sz + pending.flatten.length)
    ∧ (fileDataAfter (pending.length + 1) ⟨pending, sz, cr, e⟩).entry.crc
        = some (crc32Raw cr pending.flatten ^^^ 0xFFFFFFFF) := by
  induction pending generalizing sz cr with
  | nil => exact ⟨rfl, rfl⟩
  | cons c rest ih =>
    have step :
        fileDataAfter ((c :: rest).length + 1) ⟨c :: rest, sz, cr, e⟩
          = fileDataAfter (rest.length + 1) ⟨rest, sz + c.length, crc32Raw cr c, e⟩ := rfl
    rw [step]
    obtain ⟨h1, h2⟩ := ih (sz + c.length) (crc32Raw cr c)
    refine ⟨?_, ?_⟩
    · rw [h1]
      simp [Nat.add_assoc]
    · rw [h2, ← crc32Raw_append]
      simp

/-! ## Field extraction lemmas -/

theorem flagsOf_lt (f : ZipFileDescription) : flagsOf f < 65536 := by
  unfold flagsOf; split <;> omega

theorem fileHeader_flagsField (f : ZipFileDescription) :
    readAt (fileHeader f) 6 2 = flagsOf f := by
  have h := flagsOf_lt f
  simp [fileHeader, readAt, le16, le32, readLE0_two]
  omega

theorem fileHeader_crcField (f : ZipFileDescription) :
    readAt (fileHeader f) 14 4 = 0 := by
  simp [fileHeader, readAt, le16, le32, readLE0_four]

theorem fileHeader_compSizeField (f : ZipFileDescription) :
    readAt (fileHeader f) 18 4 = 0 := by
  simp [fileHeader, readAt, le16, le32, readLE0_four]

theorem fileHeader_uncompSizeField (f : ZipFileDescription) :
    readAt (fileHeader f) 22 4 = 0 := by
  simp [fileHeader, readAt, le16, le32, readLE0_four]

theorem fileHeader_extraLenField (f : ZipFileDescription) :
    readAt (fileHeader f) 28 2 = 32 := by
  simp [fileHeader, readAt, le16, le32, readLE0_two, zip64ExtraFieldLength]

theorem dataDescriptor_sig (f : ZipFileDescription) :
    (dataDescriptor f).take 4 = [0x50, 0x4b, 7, 8] := by
  simp [dataDescriptor, le32, le64]

theorem dataDescriptor_crcField (f : ZipFileDescription) :
    readAt (dataDescriptor f) 4 4 = f.crc.getD 0 % 4294967296 := by
  simp [dataDescriptor, readAt, le32, le64, readLE0_four]
  omega

theorem dataDescriptor_compSizeField (f : ZipFileDescription) :
    readAt (dataDescriptor f) 8 8 = f.uncompressedSize.getD 0 % 18446744073709551616 := by
  simp [dataDescriptor, readAt, le32, le64, readLE0_eight]
  omega

theorem dataDescriptor_uncompSizeField (f : ZipFileDescription) :
    readAt (dataDescriptor f) 16 8 = f.uncompressedSize.getD 0 % 18446744073709551616 := by
  simp [dataDescriptor, readAt, le32, le64, readLE0_eight]
  omega

theorem zip64ExtraField_idBytes (f : ZipFileDescription) (offset : Nat) :
    (zip64ExtraField f offset).take 2 = [0, 1] := by
  simp [zip64ExtraField, le16, le32, le64]

theorem zip64ExtraField_lenField (f : ZipFileDescription) (offset : Nat) :
    readAt (zip64ExtraField f offset) 2 2 = 28 := by
  simp [zip64ExtraField, readAt, le16, le32, le64, readLE0_two]

theorem zip64ExtraField_uncompSizeField (f : ZipFileDescription) (offset : Nat) :
    readAt (zip64ExtraField f offset) 4 8
      = f.uncompressedSize.getD 0 % 18446744073709551616 := by
  simp [zip64ExtraField, readAt, le16, le32, le64, readLE0_eight]
  omega

theorem zip64ExtraField_compSizeField (f : ZipFileDescription) (offset : Nat) :
    readAt (zip64ExtraField f offset) 12 8
      = f.uncompressedSize.getD 0 % 18446744073709551616 := by
  simp [zip64ExtraField, readAt, le16, le32, le64, readLE0_eight]
  omega

theorem zip64ExtraField_offsetField (f : ZipFileDescription) (offset : Nat) :
    readAt (zip64ExtraField f offset) 20 8 = offset % 18446744073709551616 := by
  simp [zip64ExtraField, readAt, le16, le32, le64, readLE0_eight]
  omega

theorem zip64ExtraField_diskField (f : ZipFileDescription) (offset : Nat) :
    readAt (zip64ExtraField f offset) 28 4 = 0 := by
  simp [zip64ExtraField, readAt, le16, le32, le64, readLE0_four]

theorem centralHeader_crcField (f : ZipFileDescription) (offset : Nat) :
    readAt (centralHeader f offset) 16 4 = f.crc.getD 0 % 4294967296 := by
  simp [centralHeader, readAt, le16, le32, readLE0_four]
  omega

theorem centralHeader_compSizeField (f : ZipFileDescription) (offset : Nat) :
    readAt (centralHeader f offset) 20 4 = clamp32 (f.uncompressedSize.getD 0) := by
  have h := clamp32_lt (f.uncompressedSize.getD 0)
  simp [centralHeader, readAt, le16, le32, readLE0_four]
  omega

theorem centralHeader_uncompSizeField (f : ZipFileDescription) (offset : Nat) :
    readAt (centralHeader f offset) 24 4 = clamp32 (f.uncompressedSize.getD 0) := by
  have h := clamp32_lt (f.uncompressedSize.getD 0)
  simp [centralHeader, readAt, le16, le32, readLE0_four]
  omega

theorem centralHeader_extraLenField (f : ZipFileDescription) (offset : Nat) :
    readAt (centralHeader f offset) 30 2 = 32 := by
  simp [centralHeader, readAt, le16, le32, readLE0_two, zip64ExtraFieldLength]

theorem centralHeader_offsetField (f : ZipFileDescription) (offset : Nat) :
    readAt (centralHeader f offset) 42 4 = clamp32 offset := by
  have h := clamp32_lt offset
  simp [centralHeader, readAt, le16, le32, readLE0_four]
  omega

/-! ## Reading inside concatenations -/

theorem readLE0_append_left (n : Nat) (l₁ l₂ : List Nat) (h : n ≤ l₁.length) :
    readLE0 n (l₁ ++ l₂) = readLE0 n l₁ := by
  induction n generalizing l₁ with
  | zero => rfl
  | succ m ih =>
    match l₁ with
    | [] => exact absurd h (by simp)
    | b :: t =>
      show b + 256 * readLE0 m (t ++ l₂) = b + 256 * readLE0 m t
      rw [ih t (by simpa using h)]

theorem readAt_left (l₁ l₂ : List Nat) (k n : Nat) (h : k + n ≤ l₁.length) :
    readAt (l₁ ++ l₂) k n = readAt l₁ k n := by
  unfold readAt
  rw [List.drop_append_of_le_length (by omega)]
  exact readLE0_append_left n (l₁.drop k) l₂ (by simp; omega)

/-! ## Orchestrator bookkeeping lemmas -/

theorem foldlDataStep_shift (l : List ZipFileDescription) (a : Nat) :
    l.foldl
      (fun acc f => acc + 30 + f.encodedName.length + 32 + f.uncompressedSize.getD 0 + 24) a
      = a + l.foldl
          (fun acc f => acc + 30 + f.encodedName.length + 32 + f.uncompressedSize.getD 0 + 24) 0 := by
  induction l generalizing a with
  | nil => simp
  | cons c t ih =>
    simp only [List.foldl_cons]
    rw [ih]
    conv_rhs => rw [ih]
    omega

theorem foldlCentralStep_shift (l : List ZipFileDescription) (a : Nat) :
    l.foldl (fun acc f => acc + 46 + f.encodedName.length + 32) a
      = a + l.foldl (fun acc f => acc + 46 + f.encodedName.length + 32) 0 := by
  induction l generalizing a with
  | nil => simp
  | cons c t ih =>
    simp only [List.foldl_cons]
    rw [ih]
    conv_rhs => rw [ih]
    omega

theorem predictedDataLength_cons (f : ZipFileDescription) (t : List ZipFileDescription) :
    predictedDataLength (f :: t)
      = 86 + f.encodedName.length + f.uncompressedSize.getD 0 + predictedDataLength t := by
  unfold predictedDataLength
  simp only [List.foldl_cons]
  rw [foldlDataStep_shift]
  omega

theorem predictedCentralLength_cons (f : ZipFileDescription) (t : List ZipFileDescription) :
    predictedCentralLength (f :: t)
      = 78 + f.encodedName.length + predictedCentralLength t := by
  unfold predictedCentralLength
  simp only [List.foldl_cons]
  rw [foldlCentralStep_shift]
  omega

theorem loadLoop_lengths (files : List ZipFileDescription) :
    ∀ off, (∀ f ∈ files, f.uncompressedSize = some f.content.flatten.length) →
      (loadLoop files off).1.length = predictedDataLength files
    ∧ (loadLoop files off).2.1.length = predictedCentralLength files
    ∧ (loadLoop files off).2.2 = files.length := by
  induction files with
  | nil =>
    intro off _
    refine ⟨rfl, rfl, rfl⟩
  | cons f rest ih =>
    intro off hall
    have hrest : ∀ g ∈ rest, g.uncompressedSize = some g.content.flatten.length :=
      fun g hg => hall g (List.mem_cons_of_mem f hg)
    have hf := hall f (List.mem_cons_self f rest)
    have hsz : f.uncompressedSize.getD 0 = f.content.flatten.length := by rw [hf]; rfl
    refine ⟨?_, ?_, ?_⟩
    · simp only [loadLoop, List.length_append, length_localSegment]
      rw [(ih _ hrest).1, predictedDataLength_cons]
      omega
    · simp only [loadLoop, List.length_append, length_centralRecordFor]
      rw [(ih _ hrest).2.1, predictedCentralLength_cons]
    · simp only [loadLoop, List.length_cons]
      rw [(ih _ hrest).2.2]


theorem entryOffsets_ge (files : List ZipFileDescription) :
    ∀ off i, i < files.length → off ≤ (entryOffsets files off).getD i 0 := by
  induction files with
  | nil =>
    intro off i h
    exact absurd h (by simp)
  | cons f rest ih =>
    intro off i h
    match i with
    | 0 => simp [entryOffsets]
    | i + 1 =>
      have := ih (off + (localSegment f off).length) i (by simpa using h)
      simp only [entryOffsets, List.getD_cons_succ]
      omega

theorem loadLoop_local_header_at (files : List ZipFileDescription) :
    ∀ off i (suffix : List Nat), i < files.length →
      (((loadLoop files off).1 ++ suffix).drop ((entryOffsets files off).getD i 0 - off)).take 30
        = fileHeader (files.getD i default) := by
  induction files with
  | nil =>
    intro off i suffix h
    exact absurd h (by simp)
  | cons f rest ih =>
    intro off i suffix h
    match i with
    | 0 =>
      simp only [entryOffsets, List.getD_cons_zero, Nat.sub_self, loadLoop, List.drop_zero]
      rw [List.append_assoc]
      unfold localSegment
      rw [List.append_assoc, List.append_assoc, List.append_assoc, List.append_assoc]
      exact List.take_left' (length_fileHeader f)
    | i + 1 =>
      have hlt : i < rest.length := by simpa using h
      have hge := entryOffsets_ge rest (off + (localSegment f off).length) i hlt
      simp only [entryOffsets, List.getD_cons_succ, loadLoop, List.getD_cons_succ]
      rw [List.append_assoc]
      rw [show (entryOffsets rest (off + (localSegment f off).length)).getD i 0 - off
            = (localSegment f off).length +
              ((entryOffsets rest (off + (localSegment f off).length)).getD i 0
                - (off + (localSegment f off).length)) by omega]
      rw [drop_append_length]
      exact ih (off + (localSegment f off).length) i suffix hlt

theorem centralRecords_getD (files : List ZipFileDescription) :
    ∀ off i, i < files.length →
      (centralRecords files off).getD i []
        = centralRecordFor (files.getD i default) ((entryOffsets files off).getD i 0) := by
  induction files with
  | nil =>
    intro off i h
    exact absurd h (by simp)
  | cons f rest ih =>
    intro off i h
    match i with
    | 0 => simp [centralRecords, entryOffsets]
    | i + 1 =>
      simp only [centralRecords, entryOffsets, List.getD_cons_succ]
      exact ih _ i (by simpa using h)

theorem loadLoop_central_eq_records (files : List ZipFileDescription) :
    ∀ off, (loadLoop files off).2.1 = (centralRecords files off).flatten := by
  induction files with
  | nil => intro off; rfl
  | cons f rest ih =>
    intro off
    simp only [loadLoop, centralRecords, List.flatten_cons]
    rw [ih]

/-! ## Central header fields of a finalized entry -/

theorem centralRecordFor_crcField (f : ZipFileDescription) (off : Nat) :
    readAt (centralRecordFor f off) 16 4 = crc32 f.content.flatten % 4294967296 := by
  unfold centralRecordFor
  rw [List.append_assoc,
    readAt_left _ _ 16 4 (by rw [length_centralHeader]; omega),
    centralHeader_crcField]
  simp [finalizeEntry]

theorem centralRecordFor_compSizeField (f : ZipFileDescription) (off : Nat) :
    readAt (centralRecordFor f off) 20 4 = clamp32 f.content.flatten.length := by
  unfold centralRecordFor
  rw [List.append_assoc,
    readAt_left _ _ 20 4 (by rw [length_centralHeader]; omega),
    centralHeader_compSizeField]
  simp [finalizeEntry]

theorem centralRecordFor_uncompSizeField (f : ZipFileDescription) (off : Nat) :
    readAt (centralRecordFor f off) 24 4 = clamp32 f.content.flatten.length := by
  unfold centralRecordFor
  rw [List.append_assoc,
    readAt_left _ _ 24 4 (by rw [length_centralHeader]; omega),
    centralHeader_uncompSizeField]
  simp [finalizeEntry]

theorem centralRecordFor_offsetField (f : ZipFileDescription) (off : Nat) :
    readAt (centralRecordFor f off) 42 4 = clamp32 off := by
  unfold centralRecordFor
  rw [List.append_assoc, readAt_left _ _ 42 4 (by rw [length_centralHeader])]
  exact centralHeader_offsetField _ off

theorem centralRecordFor_zip64OffsetField (f : ZipFileDescription) (off : Nat) :
    readAt (centralRecordFor f off) (46 + (f.encodedName.length + 20)) 8
      = off % 18446744073709551616 := by
  unfold centralRecordFor
  rw [List.append_assoc]
  rw [show (46 : Nat) + (f.encodedName.length + 20)
        = (centralHeader (finalizeEntry f) off).length + (f.encodedName.length + 20) by
      rw [length_centralHeader]]
  rw [readAt_append, readAt_append]
  exact zip64ExtraField_offsetField _ off

/-! ## Claim C2 -/

/-- C2 counterexample: for the deferred APPNOTE.TXT entry (no pre-known
size), the local header writes its crc and size fields as zero, not as the
0xFFFFFFFF sentinel the claim states, and it declares a 32-byte Zip64
extra field, contradicting the claim that no Zip64 extra field is attached
in the deferred case. -/
theorem fileHeader_deferred_counterexample :
    readAt (fileHeader testFile) 14 4 = 0
  ∧ readAt (fileHeader testFile) 22 4 = 0
  ∧ readAt (fileHeader testFile) 28 2 = 32
  ∧ ¬(readAt (fileHeader testFile) 14 4 = 4294967295
      ∧ readAt (fileHeader testFile) 22 4 = 4294967295
      ∧ readAt (fileHeader testFile) 28 2 = 0) := by decide

/-- C2 (amended): for every entry whose final size is not known when its
local file header is written, fileHeader sets general-purpose flag bit 3
and writes the crc, compressed-size and uncompressed-size fields as zero
placeholders (not sentinels), and it declares a 32-byte Zip64 extra field
(the extra field is attached regardless of deferral). -/
theorem fileHeader_deferred (f : ZipFileDescription)
    (_h : f.uncompressedSize = none) :
    Nat.testBit (readAt (fileHeader f) 6 2) 3 = true
  ∧ readAt (fileHeader f) 14 4 = 0
  ∧ readAt (fileHeader f) 18 4 = 0
  ∧ readAt (fileHeader f) 22 4 = 0
  ∧ readAt (fileHeader f) 28 2 = 32 := by
  refine ⟨?_, fileHeader_crcField f, fileHeader_compSizeField f,
    fileHeader_uncompSizeField f, fileHeader_extraLenField f⟩
  rw [fileHeader_flagsField]
  unfold flagsOf
  split <;> decide

/-- C2 witness: the amended statement evaluated on the deferred
APPNOTE.TXT entry. -/
theorem fileHeader_deferred_witness :
    Nat.testBit (readAt (fileHeader testFile) 6 2) 3 = true
  ∧ readAt (fileHeader testFile) 14 4 = 0
  ∧ readAt (fileHeader testFile) 18 4 = 0
  ∧ readAt (fileHeader testFile) 22 4 = 0
  ∧ readAt (fileHeader testFile) 28 2 = 32 :=
  fileHeader_deferred testFile rfl

/-! ## Claim C3 -/

/-- C3 counterexample: at the golden test input the size (0x10203040) and
offset (0x01020304) both fit their 32-bit fields, so under the claim the
Zip64 extra field would include zero subfields and declare length
8 times 0 = 0; the actual field declares length 28, is 32 bytes long, and
does include the offset subfield. -/
theorem zip64ExtraField_counterexample :
    readAt (zip64ExtraField testFileSized 0x01020304) 2 2 = 28
  ∧ (zip64ExtraField testFileSized 0x01020304).length = 32
  ∧ readAt (zip64ExtraField testFileSized 0x01020304) 20 8 = 0x01020304
  ∧ ¬(readAt (zip64ExtraField testFileSized 0x01020304) 2 2 = 8 * 0) := by decide

/-- C3 (amended): for every entry and offset, zip64ExtraField produces a
fixed 32-byte field whose 2-byte id is written without the little-endian
flag (bytes 00 01), whose declared length is always 28, and which always
includes all three subfields in the order uncompressedSize,
compressedSize (equal to it), offset, followed by a zero 4-byte disk start
number, regardless of which values overflowed. -/
theorem zip64ExtraField_layout (f : ZipFileDescription) (offset : Nat) :
    (zip64ExtraField f offset).length = 32
  ∧ (zip64ExtraField f offset).take 2 = [0, 1]
  ∧ readAt (zip64ExtraField f offset) 2 2 = 28
  ∧ readAt (zip64ExtraField f offset) 4 8
      = f.uncompressedSize.getD 0 % 18446744073709551616
  ∧ readAt (zip64ExtraField f offset) 12 8
      = f.uncompressedSize.getD 0 % 18446744073709551616
  ∧ readAt (zip64ExtraField f offset) 20 8 = offset % 18446744073709551616
  ∧ readAt (zip64ExtraField f offset) 28 4 = 0 :=
  ⟨length_zip64ExtraField f offset, zip64ExtraField_idBytes f offset,
   zip64ExtraField_lenField f offset, zip64ExtraField_uncompSizeField f offset,
   zip64ExtraField_compSizeField f offset, zip64ExtraField_offsetField f offset,
   zip64ExtraField_diskField f offset⟩

/-! ## Claim C4 -/

/-- C4 counterexample: the golden test entry has uncompressed size
0x10203040, strictly below 0xFFFFFFFF, yet its data descriptor is 24
bytes long (64-bit size fields), not the 16 bytes a 32-bit uncompressed
size field would give. -/
theorem dataDescriptor_counterexample :
    (dataDescriptor testFileSized).length = 24
  ∧ testFileSized.uncompressedSize.getD 0 < 4294967295
  ∧ ¬((dataDescriptor testFileSized).length = 16) := by decide

/-- C4 (amended): for every entry, dataDescriptor starts with the
signature PK 07 08, its crc field always carries the true 32-bit value
(never a sentinel), and the uncompressed size is always written as a
64-bit field (even below 0xFFFFFFFF), with the compressed-size field equal
to the uncompressed-size field. -/
theorem dataDescriptor_layout (f : ZipFileDescription) :
    (dataDescriptor f).length = 24
  ∧ (dataDescriptor f).take 4 = [0x50, 0x4b, 7, 8]
  ∧ readAt (dataDescriptor f) 4 4 = f.crc.getD 0 % 4294967296
  ∧ readAt (dataDescriptor f) 8 8
      = f.uncompressedSize.getD 0 % 18446744073709551616
  ∧ readAt (dataDescriptor f) 16 8
      = f.uncompressedSize.getD 0 % 18446744073709551616
  ∧ readAt (dataDescriptor f) 8 8 = readAt (dataDescriptor f) 16 8 := by
  refine ⟨length_dataDescriptor f, dataDescriptor_sig f, dataDescriptor_crcField f,
    dataDescriptor_compSizeField f, dataDescriptor_uncompSizeField f, ?_⟩
  rw [dataDescriptor_compSizeField f, dataDescriptor_uncompSizeField f]

/-! ## Claim C5 -/

/-- C5: the crc the Accumulator has written into the entry when the chunk
sequence is exhausted equals the standard CRC-32 (polynomial 0xEDB88320,
initial value 0xFFFFFFFF, final complement) of the concatenation of all
bytes, the recorded size equals the concatenated length, and both are
invariant under re-chunking: two entries carrying different chunkings of
the same logical payload end with the same crc and size. -/
theorem accumulator_crc32_chunking (f g : ZipFileDescription)
    (h : f.content.flatten = g.content.flatten) :
    (fileDataAfter (f.content.length + 1) (fileDataInit f)).entry.crc
        = some (crc32 f.content.flatten)
  ∧ (fileDataAfter (f.content.length + 1) (fileDataInit f)).entry.uncompressedSize
        = some f.content.flatten.length
  ∧ (fileDataAfter (g.content.length + 1) (fileDataInit g)).entry.crc
        = (fileDataAfter (f.content.length + 1) (fileDataInit f)).entry.crc
  ∧ (fileDataAfter (g.content.length + 1) (fileDataInit g)).entry.uncompressedSize
        = (fileDataAfter (f.content.length + 1) (fileDataInit f)).entry.uncompressedSize := by
  obtain ⟨hs1, hc1⟩ := fileDataAfter_final f.content 0 0xFFFFFFFF f
  obtain ⟨hs2, hc2⟩ := fileDataAfter_final g.content 0 0xFFFFFFFF g
  simp only [fileDataInit]
  refine ⟨?_, ?_, ?_, ?_⟩
  · rw [hc1]; rfl
  · rw [hs1]; simp
  · rw [hc1, hc2, h]
  · rw [hs1, hs2, h]

/-- C5 witness: the payload 1 2 3 chunked as (1 2)(3) and as (1)(2 3)
yields the standard CRC-32 and the same crc for both chunkings. -/
theorem accumulator_crc32_chunking_witness :
    (fileDataAfter (accEntryA.content.length + 1) (fileDataInit accEntryA)).entry.crc
        = some (crc32 accEntryA.content.flatten)
  ∧ (fileDataAfter (accEntryB.content.length + 1) (fileDataInit accEntryB)).entry.crc
        = (fileDataAfter (accEntryA.content.length + 1) (fileDataInit accEntryA)).entry.crc :=
  ⟨(accumulator_crc32_chunking accEntryA accEntryB rfl).1,
   (accumulator_crc32_chunking accEntryA accEntryB rfl).2.2.1⟩

/-! ## Claim C6 -/

/-- C6: fileData yields exactly the chunks of the entry content,
unmodified and in order; while chunks remain to be pulled the entry size
and crc fields stay unset, and after exhaustion they hold the total byte
count and the checksum, written exactly once at the exhaustion pull. -/
theorem fileData_passthrough_finalize (f : ZipFileDescription)
    (h1 : f.uncompressedSize = none) (h2 : f.crc = none) :
    fileDataOut (f.content.length + 1) (fileDataInit f) = f.content
  ∧ (∀ k, k ≤ f.content.length →
      (fileDataAfter k (fileDataInit f)).entry.uncompressedSize = none
      ∧ (fileDataAfter k (fileDataInit f)).entry.crc = none)
  ∧ (fileDataAfter (f.content.length + 1) (fileDataInit f)).entry.uncompressedSize
      = some f.content.flatten.length
  ∧ (fileDataAfter (f.content.length + 1) (fileDataInit f)).entry.crc
      = some (crc32 f.content.flatten) := by
  obtain ⟨hs, hc⟩ := fileDataAfter_final f.content 0 0xFFFFFFFF f
  simp only [fileDataInit]
  refine ⟨fileDataOut_all f.content 0 0xFFFFFFFF f, ?_, ?_, ?_⟩
  · intro k hk
    rw [fileDataAfter_entry_untouched k f.content 0 0xFFFFFFFF f hk]
    exact ⟨h1, h2⟩
  · rw [hs]; simp
  · rw [hc]; rfl

/-- C6 witness: the contract evaluated on the payload 1 2 3 chunked as
(1 2)(3): the chunks pass through, after one pull the fields are still
unset, and after exhaustion the crc is recorded. -/
theorem fileData_passthrough_finalize_witness :
    fileDataOut (accEntryA.content.length + 1) (fileDataInit accEntryA) = accEntryA.content
  ∧ (fileDataAfter 1 (fileDataInit accEntryA)).entry.uncompressedSize = none
  ∧ (fileDataAfter (accEntryA.content.length + 1) (fileDataInit accEntryA)).entry.crc
      = some (crc32 accEntryA.content.flatten) :=
  ⟨(fileData_passthrough_finalize accEntryA rfl rfl).1,
   ((fileData_passthrough_finalize accEntryA rfl rfl).2.1 1 (by decide)).1,
   (fileData_passthrough_finalize accEntryA rfl rfl).2.2.2⟩

/-! ## Claim C7 -/

/-- C7 counterexample: the entry of pre-known size 0xFFFFFFFE still gets a
declared 32-byte Zip64 extra field in both its central and local headers
(the claim states no Zip64 handling is triggered below the threshold), and
the entry of size exactly 0xFFFFFFFF has its local header size field
written as zero, not as the claimed sentinel. -/
theorem zip64_threshold_counterexample :
    readAt (centralHeader nearMaxFile 0) 30 2 = 32
  ∧ readAt (fileHeader nearMaxFile) 28 2 = 32
  ∧ ¬(readAt (centralHeader nearMaxFile 0) 30 2 = 0)
  ∧ readAt (fileHeader maxFile) 22 4 = 0
  ∧ ¬(readAt (fileHeader maxFile) 22 4 = 4294967295) := by decide

/-- C7 (amended): the 32-bit clamp used by the central header and end
records hits the sentinel exactly when the true value is at least
0xFFFFFFFF, and the 16-bit entry-count clamp at 0xFFFF; an entry of size
exactly 0xFFFFFFFF has the sentinel in its central size fields while the
Zip64 extra field carries the true value; but the Zip64 extra field is
declared for every entry, including size 0xFFFFFFFE whose central size
field holds the real value, and local headers never write sizes at all. -/
theorem zip64_threshold_policy (v c : Nat) :
    (clamp32 v = 4294967295 ↔ 4294967295 ≤ v)
  ∧ (clamp16 c = 65535 ↔ 65535 ≤ c)
  ∧ readAt (centralHeader maxFile 0) 24 4 = 4294967295
  ∧ readAt (zip64ExtraField maxFile 0) 4 8 = 4294967295
  ∧ readAt (centralHeader nearMaxFile 0) 24 4 = 4294967294
  ∧ readAt (centralHeader nearMaxFile 0) 30 2 = 32
  ∧ readAt (centralHeader maxFile 0) 30 2 = 32 := by
  refine ⟨?_, ?_, by decide, by decide, by decide, by decide, by decide⟩
  · unfold clamp32; omega
  · unfold clamp16; omega

/-! ## Claim C9 -/

/-- C9: calling the Length Predictor on a list containing an entry with no
known size fails with MissingSizeForPrediction, and the failure carries
the encoded name of an offending entry (one whose size is absent). -/
theorem predictLength_missing_size (files : List ZipFileDescription)
    (h : ∃ f ∈ files, f.uncompressedSize = none) :
    ∃ g ∈ files, g.uncompressedSize = none ∧
      predictLength files = .error (.MissingSizeForPrediction g.encodedName) := by
  cases hf : files.find? (fun f => f.uncompressedSize.isNone) with
  | none =>
    obtain ⟨f, hm, hn⟩ := h
    have := List.find?_eq_none.mp hf f hm
    simp [hn] at this
  | some g =>
    refine ⟨g, List.mem_of_find?_eq_some hf, ?_, ?_⟩
    · have := List.find?_some hf
      simpa [Option.isNone_iff_eq_none] using this
    · simp [predictLength, contentLength, hf]

/-- C9 witness: predicting the length of the single deferred APPNOTE.TXT
entry fails, naming that entry. -/
theorem predictLength_missing_size_witness :
    ∃ g ∈ [testFile], g.uncompressedSize = none ∧
      predictLength [testFile] = .error (.MissingSizeForPrediction g.encodedName) :=
  predictLength_missing_size [testFile] ⟨testFile, by decide, rfl⟩

/-! ## Claim C1 -/

/-- C1: for a single-entry input whose content length is supplied up front
(the declared size equals the actual content length), predictLength
returns exactly the byte length of the archive stream the Streaming
Orchestrator produces for the same entry (loadFilesBytes, the body of
downloadZip), covering the local header, name, Zip64 extra field, data,
data descriptor, central directory and end records. -/
theorem predictLength_exact_single (f : ZipFileDescription)
    (h : f.uncompressedSize = some f.content.flatten.length) :
    predictLength [f] = .ok ((loadFilesBytes [f]).length) := by
  obtain ⟨hd, hc, hn⟩ := loadLoop_lengths [f] 0 (by
    intro g hg
    rw [List.mem_singleton] at hg
    rw [hg]
    exact h)
  have hfind : [f].find? (fun x => x.uncompressedSize.isNone) = none := by
    simp [h]
  simp only [predictLength, contentLength, hfind, loadFilesBytes]
  simp only [List.length_append, hd, hc, hn, length_endRecords,
    List.length_singleton, Except.ok.injEq]
  split_ifs <;> omega

/-- C1 witness: the single-entry archive of a 3-byte payload with declared
size 3 has predicted length 211, equal to the produced byte count. -/
theorem predictLength_exact_single_witness :
    predictLength [smallSized] = .ok ((loadFilesBytes [smallSized]).length)
  ∧ predictLength [smallSized] = .ok 211 :=
  ⟨predictLength_exact_single smallSized rfl, rfl⟩

/-! ## Claim C8 -/

/-- C8: in the archive the Orchestrator produces, each central directory
record is encoded from the finalized entry: its crc field holds the
checksum of the entry content, its size fields hold the clamped true
content length (never deferred placeholders), its offset field holds the
clamped local-header offset with the true 64-bit offset in the attached
Zip64 extra field, and the local header of that entry really does start at
that offset in the output stream. -/
theorem centralDirectory_finalized (files : List ZipFileDescription) (i : Nat)
    (hi : i < files.length) :
    readAt ((centralRecords files 0).getD i []) 16 4
        = crc32 (files.getD i default).content.flatten % 4294967296
  ∧ readAt ((centralRecords files 0).getD i []) 20 4
        = clamp32 (files.getD i default).content.flatten.length
  ∧ readAt ((centralRecords files 0).getD i []) 24 4
        = clamp32 (files.getD i default).content.flatten.length
  ∧ readAt ((centralRecords files 0).getD i []) 42 4
        = clamp32 ((entryOffsets files 0).getD i 0)
  ∧ readAt ((centralRecords files 0).getD i [])
        (46 + ((files.getD i default).encodedName.length + 20)) 8
        = (entryOffsets files 0).getD i 0 % 18446744073709551616
  ∧ ((loadFilesBytes files).drop ((entryOffsets files 0).getD i 0)).take 30
        = fileHeader (files.getD i default) := by
  rw [centralRecords_getD files 0 i hi]
  refine ⟨centralRecordFor_crcField _ _, centralRecordFor_compSizeField _ _,
    centralRecordFor_uncompSizeField _ _, centralRecordFor_offsetField _ _,
    centralRecordFor_zip64OffsetField _ _, ?_⟩
  have key := loadLoop_local_header_at files 0 i
    ((loadLoop files 0).2.1 ++
      endRecords (loadLoop files 0).2.2 (loadLoop files 0).2.1.length
        (loadLoop files 0).1.length) hi
  simpa [loadFilesBytes, List.append_assoc] using key

/-- C8 witness: the two-entry archive of the chunked payloads, evaluated
at the second entry. -/
theorem centralDirectory_finalized_witness :
    readAt ((centralRecords [accEntryA, accEntryB] 0).getD 1 []) 16 4
        = crc32 ([accEntryA, accEntryB].getD 1 default).content.flatten % 4294967296
  ∧ readAt ((centralRecords [accEntryA, accEntryB] 0).getD 1 []) 20 4
        = clamp32 ([accEntryA, accEntryB].getD 1 default).content.flatten.length
  ∧ readAt ((centralRecords [accEntryA, accEntryB] 0).getD 1 []) 24 4
        = clamp32 ([accEntryA, accEntryB].getD 1 default).content.flatten.length
  ∧ readAt ((centralRecords [accEntryA, accEntryB] 0).getD 1 []) 42 4
        = clamp32 ((entryOffsets [accEntryA, accEntryB] 0).getD 1 0)
  ∧ readAt ((centralRecords [accEntryA, accEntryB] 0).getD 1 [])
        (46 + (([accEntryA, accEntryB].getD 1 default).encodedName.length + 20)) 8
        = (entryOffsets [accEntryA, accEntryB] 0).getD 1 0 % 18446744073709551616
  ∧ ((loadFilesBytes [accEntryA, accEntryB]).drop
        ((entryOffsets [accEntryA, accEntryB] 0).getD 1 0)).take 30
        = fileHeader ([accEntryA, accEntryB].getD 1 default) :=
  centralDirectory_finalized [accEntryA, accEntryB] 1 (by decide)

/-! ## Claim C10 -/

/-- C10 counterexample: when the metadata option holds an entry with no
known size, downloadZip does not return a Response at all: the
MissingSizeForPrediction failure propagates instead, refuting the claim
that every call returns a Response with the stated headers. -/
theorem downloadZip_counterexample :
    downloadZip [] { length := none, metadata := some [testFile] }
      = .error (.MissingSizeForPrediction testFile.encodedName) := rfl

/-- C10 (amended): every call of downloadZip whose metadata option (when
provided) passes length prediction returns a Response whose headers
include Content-Type application slash zip and Content-Disposition
attachment and whose body is the archive stream; Content-Length is set to
the length option exactly when that value is an integer strictly greater
than zero, and is overridden by the predicted length whenever metadata is
provided; when the provided metadata fails prediction, the failure
propagates and no Response is produced. -/
theorem downloadZip_headers (files : List ZipFileDescription) (opts : Options) :
    (∃ m e, opts.metadata = some m ∧ predictLength m = .error e ∧
        downloadZip files opts = .error e)
  ∨ (∃ r, downloadZip files opts = .ok r
      ∧ r.headers.contentType = "application/zip"
      ∧ r.headers.contentDisposition = "attachment"
      ∧ r.body = loadFilesBytes files
      ∧ (∀ m n, opts.metadata = some m → predictLength m = .ok n →
            r.headers.contentLength = some n)
      ∧ (opts.metadata = none → ∀ q, opts.length = some q →
            ((q.den = 1 ∧ 0 < q.num) → r.headers.contentLength = some q.num.toNat)
          ∧ (¬(q.den = 1 ∧ 0 < q.num) → r.headers.contentLength = none))
      ∧ (opts.metadata = none → opts.length = none →
            r.headers.contentLength = none)) := by
  cases hm : opts.metadata with
  | some m =>
    cases hp : predictLength m with
    | error e =>
      left
      exact ⟨m, e, rfl, hp, by simp [downloadZip, hm, hp]⟩
    | ok n =>
      right
      refine ⟨⟨⟨"application/zip", "attachment", some n⟩, loadFilesBytes files⟩,
        by simp [downloadZip, hm, hp], rfl, rfl, rfl, ?_, ?_, ?_⟩
      · intro m2 n2 hm2 hp2
        injection hm2 with hmm
        subst hmm
        rw [hp] at hp2
        injection hp2 with hnn
        rw [hnn]
      · intro hnone
        exact absurd hnone (by simp)
      · intro hnone
        exact absurd hnone (by simp)
  | none =>
    right
    cases hl : opts.length with
    | none =>
      refine ⟨⟨⟨"application/zip", "attachment", none⟩, loadFilesBytes files⟩,
        by simp [downloadZip, hm, hl], rfl, rfl, rfl, ?_, ?_, ?_⟩
      · intro m2 n2 hm2 _
        exact absurd hm2 (by simp)
      · intro _ q hq
        exact absurd hq (by simp)
      · intro _ _
        rfl
    | some q =>
      by_cases hq : q.den = 1 ∧ 0 < q.num
      · refine ⟨⟨⟨"application/zip", "attachment", some q.num.toNat⟩, loadFilesBytes files⟩,
          by simp only [downloadZip, hm, hl]; rw [if_pos hq], rfl, rfl, rfl, ?_, ?_, ?_⟩
        · intro m2 n2 hm2 _
          exact absurd hm2 (by simp)
        · intro _ q2 hq2
          injection hq2 with hqq
          subst hqq
          exact ⟨fun _ => rfl, fun hcon => absurd hq hcon⟩
        · intro _ hln
          exact absurd hln (by simp)
      · refine ⟨⟨⟨"application/zip", "attachment", none⟩, loadFilesBytes files⟩,
          by simp only [downloadZip, hm, hl]; rw [if_neg hq], rfl, rfl, rfl, ?_, ?_, ?_⟩
        · intro m2 n2 hm2 _
          exact absurd hm2 (by simp)
        · intro _ q2 hq2
          injection hq2 with hqq
          subst hqq
          exact ⟨fun hcon => absurd hcon hq, fun _ => rfl⟩
        · intro _ hln
          exact absurd hln (by simp)

/-- C10 witness: a call with an integer positive length option and no
metadata returns a Response with the standard headers and Content-Length
5. -/
theorem downloadZip_headers_witness :
    ∃ r, downloadZip [] { length := some 5, metadata := none } = .ok r
      ∧ r.headers.contentType = "application/zip"
      ∧ r.headers.contentDisposition = "attachment"
      ∧ r.headers.contentLength = some 5 := by
  rcases downloadZip_headers [] { length := some 5, metadata := none } with
    ⟨m, e, hm, _, _⟩ | ⟨r, hr, h1, h2, _, _, hlen, _⟩
  · exact absurd hm (by simp)
  · refine ⟨r, hr, h1, h2, ?_⟩
    have h5 : ((5 : ℚ).den = 1 ∧ 0 < (5 : ℚ).num) := by norm_num
    have := (hlen rfl 5 rfl).1 h5
    simpa using this

end ClientZip
